import Mathlib

/-!
Shallow embedding of the rfw control plane (src/rfw/src/main.rs).

The control plane parses CIDR strings into LPM keys, compiles the CLI
options into a single CONFIG bit word, and batch-fetches per-country
GeoIP data.  Strings are modelled as `List Char`, u8/u32 values as `Nat`
with explicit `% 2^32` where overflow matters, and fallible operations
as `Option`.
-/

/-- Models Rust's `str::parse` for an unsigned integer type with
exclusive upper bound `bound` (256 for `u8`, 2^32 for `u32`): an
optional single leading plus sign, then one or more ASCII digits, with
an overflow check.  A leading minus sign is not accepted for unsigned
types. -/
def stripPlus (s : List Char) : List Char :=
  match s with
  | c :: rest => if c = '+' then rest else s
  | [] => s

/-- Numeric value of a list of ASCII digit characters, most significant
first (the accumulation loop of Rust's `from_str_radix` at radix 10). -/
def digitsVal (ds : List Char) : Nat :=
  ds.foldl (fun acc c => acc * 10 + (c.toNat - 48)) 0

/-- Rust `str::parse::<uN>` with exclusive bound `bound`. -/
def parseRustUInt (bound : Nat) (s : List Char) : Option Nat :=
  let ds := stripPlus s
  if ds = [] then none
  else if ds.all Char.isDigit then
    if digitsVal ds < bound then some (digitsVal ds) else none
  else none

/-- Rust `part.parse::<u8>().ok()`. -/
def parseU8 (s : List Char) : Option Nat := parseRustUInt 256 s

/-- Rust `parts[1].parse::<u32>().ok()`. -/
def parseU32 (s : List Char) : Option Nat := parseRustUInt 4294967296 s

/-- The network mask of main.rs lines 99-104:
`if prefix_len == 0 { 0 } else { !0u32 << (32 - prefix_len) }`,
with the u32 shift overflow made explicit by `% 2^32`. -/
def u32_mask (prefix_len : Nat) : Nat :=
  if prefix_len = 0 then 0 else (4294967295 <<< (32 - prefix_len)) % 4294967296

/-- The octet-assembly step of the `try_fold` in `parse_cidr_to_lpm`
(main.rs lines 84-91): `acc | ((byte as u32) << (24 - i * 8))`. -/
def octetStep (acc : Nat) (q : Nat × List Char) : Option Nat :=
  (parseU8 q.2).map (fun byte => acc ||| ((byte <<< (24 - q.1 * 8)) % 4294967296))

/-- Embedding of `parse_cidr_to_lpm` (main.rs lines 72-111): split on
`'/'` into exactly two parts, split the address on `'.'` into exactly
four parts, assemble the address octets with an enumerated `try_fold`,
parse the prefix length as `u32`, reject prefix lengths above 32, and
return the masked network address with the prefix length. -/
def parse_cidr_to_lpm (cidr : List Char) : Option (Nat × Nat) :=
  match cidr.splitOn '/' with
  | [ipStr, preStr] =>
    match ipStr.splitOn '.' with
    | [pa, pb, pc, pd] => do
      let ip ← ([pa, pb, pc, pd].enum).foldlM octetStep 0
      let prefix_len ← parseU32 preStr
      if prefix_len > 32 then none
      else some (ip &&& u32_mask prefix_len, prefix_len)
    | _ => none
  | _ => none

/-- Models `u32::to_be()` (main.rs line 464) on a little-endian host:
the 32-bit byte swap that converts a host-order value to big-endian. -/
def u32_to_be (x : Nat) : Nat :=
  ((x % 256) <<< 24) ||| (((x >>> 8) % 256) <<< 16) ||| (((x >>> 16) % 256) <<< 8) ||| ((x >>> 24) % 256)

/-- The `htonl` conversion named by the spec: host byte order to network
byte order (big-endian), i.e. the 32-bit byte swap on a little-endian
host. -/
def htonl (x : Nat) : Nat :=
  ((x % 256) <<< 24) ||| (((x >>> 8) % 256) <<< 16) ||| (((x >>> 16) % 256) <<< 8) ||| ((x >>> 24) % 256)

/-- The LPM key built by the loader for one CIDR string (main.rs lines
461-464): `Key::new(prefix_len, ip.to_be())` when the CIDR parses,
nothing otherwise. -/
def loader_key (cidr : List Char) : Option (Nat × Nat) :=
  match parse_cidr_to_lpm cidr with
  | some (ip, prefix_len) => some (prefix_len, u32_to_be ip)
  | none => none

/-- The inner insertion loop of the loader (main.rs lines 459-481) over
one batch of CIDR strings, abstracted to the sequence of LPM keys it
inserts: an entry that fails to parse is skipped and the loop continues
with the remaining entries. -/
def load_entries : List (List Char) → List (Nat × Nat)
  | [] => []
  | cidr :: rest =>
    match parse_cidr_to_lpm cidr with
    | some (ip, prefix_len) => (prefix_len, u32_to_be ip) :: load_entries rest
    | none => load_entries rest

/-- One GeoIP rule of the downloaded JSON document: a list of CIDR
strings (main.rs lines 16-19). -/
structure GeoIpRule where
  ip_cidr : List (List Char)
deriving DecidableEq

/-- The downloaded GeoIP document: a list of rules (main.rs lines 11-14). -/
structure GeoIpData where
  rules : List GeoIpRule
deriving DecidableEq

/-- Rust `str::to_uppercase` restricted to the ASCII country codes the
program handles: uppercase every character. -/
def upperCode (s : List Char) : List Char := s.map Char.toUpper

/-- The accumulation loop of `fetch_multiple_geoip_data` (main.rs lines
49-62), with the network fetch abstracted as an oracle `fetch` from an
uppercased country code to the document it returns on success: a failed
fetch is skipped and the loop continues. -/
def collect_geo (fetch : List Char → Option GeoIpData) :
    List (List Char) → List (List Char × GeoIpData)
  | [] => []
  | code :: rest =>
    match fetch (upperCode code) with
    | some data => (upperCode code, data) :: collect_geo fetch rest
    | none => collect_geo fetch rest

/-- Embedding of `fetch_multiple_geoip_data` (main.rs lines 48-69):
collect the successful fetches in order; if none succeeded, bail with an
error, otherwise return the collected list. -/
def fetch_multiple_geoip_data (fetch : List Char → Option GeoIpData)
    (country_codes : List (List Char)) : Except Unit (List (List Char × GeoIpData)) :=
  let results := collect_geo fetch country_codes
  if results.isEmpty then Except.error () else Except.ok results

/-- The CLI options of `struct Opt` (main.rs lines 145-264) that feed
the CONFIG word; `iface` and `xdp_mode` are omitted because they never
touch the configuration bits. -/
structure Opt where
  countries : List (List Char)
  allow_only_countries : List (List Char)
  block_all_from : List (List Char)
  block_email : Bool
  block_http : Bool
  block_socks5 : Bool
  block_fet_strict : Bool
  block_fet_loose : Bool
  block_wireguard : Bool
  block_quic : Bool
  block_all : Bool

/-- Clap's declarative conflict checking for `Opt` as declared in
main.rs: `block_fet_strict` conflicts with `block_fet_loose` (lines 211,
221), `allow_only_countries` conflicts with `countries` (line 165), and
`block_all_from` conflicts with `countries` (line 172).  A list option
counts as supplied when it is nonempty.  No other pair is declared to
conflict. -/
def clap_accepts (o : Opt) : Bool :=
  !(o.block_fet_strict && o.block_fet_loose)
  && !(!o.allow_only_countries.isEmpty && !o.countries.isEmpty)
  && !(!o.block_all_from.isEmpty && !o.countries.isEmpty)

/-- The country-list selection of main.rs lines 289-302: the target
country list together with the whitelist-mode flag.  `block_all_from`
is checked first, then `allow_only_countries` (which alone sets
whitelist mode), then `countries`. -/
def country_select (o : Opt) : List (List Char) × Bool :=
  if !o.block_all_from.isEmpty then (o.block_all_from, false)
  else if !o.allow_only_countries.isEmpty then (o.allow_only_countries, true)
  else if !o.countries.isEmpty then (o.countries, false)
  else ([], false)

/-- Modelled from the spec: the `rfw_common` CONFIG bit constants live
in the `rfw-common` crate, which is not under src/.  The spec fixes
their names and that they are bits of one 32-bit word; the concrete
positions are chosen here as distinct single bits in the order the spec
lists them. -/
def RULE_GEOIP_ENABLED : Nat := 1

/-- Modelled from the spec: see `RULE_GEOIP_ENABLED`. -/
def RULE_GEOIP_WHITELIST : Nat := 2

/-- Modelled from the spec: see `RULE_GEOIP_ENABLED`. -/
def RULE_BLOCK_EMAIL : Nat := 4

/-- Modelled from the spec: see `RULE_GEOIP_ENABLED`. -/
def RULE_BLOCK_HTTP : Nat := 8

/-- Modelled from the spec: see `RULE_GEOIP_ENABLED`. -/
def RULE_BLOCK_SOCKS5 : Nat := 16

/-- Modelled from the spec: see `RULE_GEOIP_ENABLED`. -/
def RULE_BLOCK_WIREGUARD : Nat := 32

/-- Modelled from the spec: see `RULE_GEOIP_ENABLED`. -/
def RULE_BLOCK_QUIC : Nat := 64

/-- Modelled from the spec: see `RULE_GEOIP_ENABLED`. -/
def RULE_BLOCK_FET_STRICT : Nat := 128

/-- Modelled from the spec: see `RULE_GEOIP_ENABLED`. -/
def RULE_BLOCK_FET_LOOSE : Nat := 256

/-- Modelled from the spec: see `RULE_GEOIP_ENABLED`. -/
def RULE_BLOCK_ALL : Nat := 512

/-- The CONFIG word compiled by `main` (main.rs lines 349-432): starting
from 0, or in each rule bit guarded by its option, in source order:
email, then the GeoIP pair driven by the selected country list and
whitelist mode, then http, socks5, fet-strict, fet-loose, wireguard,
quic, and block-all.  `RULE_BLOCK_ALL` is guarded only by
`opt.block_all` (line 424). -/
def config_flags (o : Opt) : Nat :=
  let target_countries := (country_select o).1
  let whitelist_mode := (country_select o).2
  let f := 0
  let f := if o.block_email then f ||| RULE_BLOCK_EMAIL else f
  let f := if !target_countries.isEmpty then
             (if whitelist_mode then (f ||| RULE_GEOIP_ENABLED) ||| RULE_GEOIP_WHITELIST
              else f ||| RULE_GEOIP_ENABLED)
           else f
  let f := if o.block_http then f ||| RULE_BLOCK_HTTP else f
  let f := if o.block_socks5 then f ||| RULE_BLOCK_SOCKS5 else f
  let f := if o.block_fet_strict then f ||| RULE_BLOCK_FET_STRICT else f
  let f := if o.block_fet_loose then f ||| RULE_BLOCK_FET_LOOSE else f
  let f := if o.block_wireguard then f ||| RULE_BLOCK_WIREGUARD else f
  let f := if o.block_quic then f ||| RULE_BLOCK_QUIC else f
  let f := if o.block_all then f ||| RULE_BLOCK_ALL else f
  f

/-- A u32 left shift with Rust's overflow semantics made observable: in
a built (debug) binary `x << k` panics when `k ≥ 32`; `none` here marks
that panic. -/
def checked_shl32 (x k : Nat) : Option Nat :=
  if k < 32 then some ((x <<< k) % 4294967296) else none

/-- The octet `try_fold` of `parse_cidr_to_lpm` with every shift routed
through `checked_shl32`: the outer `none` marks a panicking shift, while
`some none` is the fold's own normal `None` result. -/
def octet_fold_checked : Nat → List (Nat × List Char) → Option (Option Nat)
  | acc, [] => some (some acc)
  | acc, q :: rest =>
    match parseU8 q.2 with
    | none => some none
    | some byte =>
      match checked_shl32 byte (24 - q.1 * 8) with
      | none => none
      | some shifted => octet_fold_checked (acc ||| shifted) rest

/-- `parse_cidr_to_lpm` with every u32 shift routed through
`checked_shl32`: the outer `none` marks a panic, `some r` the normal
return of `r`. -/
def parse_cidr_to_lpm_checked (cidr : List Char) : Option (Option (Nat × Nat)) :=
  match cidr.splitOn '/' with
  | [ipStr, preStr] =>
    match ipStr.splitOn '.' with
    | [pa, pb, pc, pd] =>
      match octet_fold_checked 0 ([pa, pb, pc, pd].enum) with
      | none => none
      | some none => some none
      | some (some ip) =>
        match parseU32 preStr with
        | none => some none
        | some prefix_len =>
          if prefix_len > 32 then some none
          else if prefix_len = 0 then some (some (ip &&& 0, prefix_len))
          else
            match checked_shl32 4294967295 (32 - prefix_len) with
            | none => none
            | some mask => some (some (ip &&& mask, prefix_len))
    | _ => some none
  | _ => some none

/-- The malformed-CIDR conditions named by the spec and the claim, as an
executable predicate: not exactly two '/'-separated parts, not exactly
four '.'-separated octets, an octet that fails to parse as `u8`
(non-numeric or outside [0,255]), a prefix that fails to parse as `u32`
(missing or non-numeric), or a prefix length above 32. -/
def cidr_malformed (s : List Char) : Bool :=
  match s.splitOn '/' with
  | [ipStr, preStr] =>
    ((ipStr.splitOn '.').length != 4)
    || (ipStr.splitOn '.').any (fun o => parseU8 o == none)
    || parseU32 preStr == none
    || (match parseU32 preStr with
        | some p => decide (32 < p)
        | none => false)
  | _ => true

/-- Decimal rendering of a natural number, used to build canonical CIDR
strings `A.B.C.D/p`. -/
def decChars (n : Nat) : List Char :=
  if n = 0 then ['0'] else ((Nat.digits 10 n).map Nat.digitChar).reverse

/-- The address part `A.B.C.D` of a canonical CIDR string. -/
def ipChars (a b c d : Nat) : List Char :=
  decChars a ++ ('.' :: (decChars b ++ ('.' :: (decChars c ++ ('.' :: decChars d)))))

/-- A canonical CIDR string `A.B.C.D/p`. -/
def mkCidr (a b c d p : Nat) : List Char :=
  ipChars a b c d ++ ('/' :: decChars p)

/-- The 32-bit address assembled from four in-range octets, exactly as
the `try_fold` of `parse_cidr_to_lpm` assembles it. -/
def ipOfOctets (a b c d : Nat) : Nat :=
  (((0 ||| ((a <<< 24) % 4294967296)) ||| ((b <<< 16) % 4294967296))
    ||| ((c <<< 8) % 4294967296)) ||| ((d <<< 0) % 4294967296)

example : parse_cidr_to_lpm ("1.0.1.0/24".data) = some (16777472, 24) := by decide
example : parse_cidr_to_lpm ("1.2.3.4/0".data) = some (0, 0) := by decide
example : parse_cidr_to_lpm ("1.2.3.4/33".data) = none := by decide
example : parse_cidr_to_lpm ("1.2.3/24".data) = none := by decide
example : parse_cidr_to_lpm ("256.2.3.4/24".data) = none := by decide
example : parse_cidr_to_lpm ("+1.2.3.4/+24".data) = some (16909056, 24) := by decide
example : parse_cidr_to_lpm ("001.002.003.004/024".data) = some (16909056, 24) := by decide
example : parse_cidr_to_lpm ("-1.2.3.4/24".data) = none := by decide
example : parse_cidr_to_lpm ("1.2.3.4".data) = none := by decide
example : parse_cidr_to_lpm ("".data) = none := by decide
example : parse_cidr_to_lpm ("1.2.3.4/24/7".data) = none := by decide

/-! Helper lemmas: decimal rendering round-trips through the Rust
unsigned-integer parser, and `splitOn` recovers the components of a
canonical CIDR string. -/

lemma digitChar_isDigit {d : Nat} (h : d < 10) : (Nat.digitChar d).isDigit = true := by
  interval_cases d <;> decide

lemma digitChar_toNat {d : Nat} (h : d < 10) : (Nat.digitChar d).toNat - 48 = d := by
  interval_cases d <;> decide

lemma digit_beq_false {c x : Char} (h : c.isDigit = true) (hx : x.isDigit = false) :
    (c == x) = false := by
  cases hc : c == x
  · rfl
  · rw [eq_of_beq hc] at h
    rw [h] at hx
    exact absurd hx (by simp)

lemma decChars_isDigit {n : Nat} : ∀ c ∈ decChars n, c.isDigit = true := by
  intro c hc
  unfold decChars at hc
  split at hc
  · simp only [List.mem_singleton] at hc
    subst hc
    decide
  · simp only [List.mem_reverse, List.mem_map] at hc
    obtain ⟨d, hd, rfl⟩ := hc
    exact digitChar_isDigit (Nat.digits_lt_base (by norm_num) hd)

lemma decChars_ne_nil (n : Nat) : decChars n ≠ [] := by
  unfold decChars
  split
  · simp
  · simp [Nat.digits_ne_nil_iff_ne_zero, *]

lemma foldr_digits_eq_ofDigits :
    ∀ L : List Nat, (∀ d ∈ L, d < 10) →
      L.foldr (fun d acc => acc * 10 + ((Nat.digitChar d).toNat - 48)) 0 = Nat.ofDigits 10 L := by
  intro L
  induction L with
  | nil => intro _; simp [Nat.ofDigits]
  | cons d L ih =>
    intro h
    rw [List.foldr_cons, Nat.ofDigits_cons, ih (fun x hx => h x (List.mem_cons_of_mem _ hx)),
      digitChar_toNat (h d (List.mem_cons_self _ _))]
    ring

lemma digitsVal_decChars (n : Nat) : digitsVal (decChars n) = n := by
  unfold decChars digitsVal
  split
  · simp [*]
  · rw [List.foldl_reverse, List.foldr_map, foldr_digits_eq_ofDigits _
      (fun d hd => Nat.digits_lt_base (by norm_num) hd)]
    exact_mod_cast Nat.ofDigits_digits 10 n

lemma stripPlus_decChars (n : Nat) : stripPlus (decChars n) = decChars n := by
  rcases h : decChars n with _ | ⟨c, t⟩
  · rfl
  · have hc : c.isDigit = true := decChars_isDigit c (by rw [h]; exact List.mem_cons_self c t)
    simp only [stripPlus]
    rw [if_neg]
    intro he
    rw [he] at hc
    exact absurd hc (by decide)

lemma parseRustUInt_decChars {bound n : Nat} (h : n < bound) :
    parseRustUInt bound (decChars n) = some n := by
  unfold parseRustUInt
  rw [stripPlus_decChars]
  rw [if_neg (decChars_ne_nil n)]
  rw [if_pos (List.all_eq_true.mpr (fun c hc => decChars_isDigit c hc))]
  rw [digitsVal_decChars]
  exact if_pos h

lemma parseU8_decChars {n : Nat} (h : n ≤ 255) : parseU8 (decChars n) = some n :=
  parseRustUInt_decChars (by omega)

lemma parseU32_decChars {n : Nat} (h : n ≤ 32) : parseU32 (decChars n) = some n :=
  parseRustUInt_decChars (by omega)

lemma splitOn_append_sep (sep : Char) (xs as : List Char)
    (hx : ∀ c ∈ xs, (c == sep) = false) :
    (xs ++ sep :: as).splitOn sep = xs :: as.splitOn sep := by
  simp only [List.splitOn]
  exact List.splitOnP_first _ xs (fun x hxm => by simp [hx x hxm]) sep (by simp) as

lemma splitOn_no_sep (sep : Char) (xs : List Char)
    (hx : ∀ c ∈ xs, (c == sep) = false) :
    xs.splitOn sep = [xs] := by
  simp only [List.splitOn]
  exact List.splitOnP_eq_single _ _ (fun x hxm => by simp [hx x hxm])

lemma decChars_beq_false {n : Nat} {x : Char} (hx : x.isDigit = false) :
    ∀ c ∈ decChars n, (c == x) = false :=
  fun c hc => digit_beq_false (decChars_isDigit c hc) hx

lemma ipChars_no_slash (a b c d : Nat) : ∀ ch ∈ ipChars a b c d, (ch == '/') = false := by
  intro ch hch
  unfold ipChars at hch
  simp only [List.mem_append, List.mem_cons] at hch
  rcases hch with h | h | h | h | h | h | h
  · exact decChars_beq_false (by decide) ch h
  · subst h; decide
  · exact decChars_beq_false (by decide) ch h
  · subst h; decide
  · exact decChars_beq_false (by decide) ch h
  · subst h; decide
  · exact decChars_beq_false (by decide) ch h

lemma splitOn_mkCidr (a b c d p : Nat) :
    (mkCidr a b c d p).splitOn '/' = [ipChars a b c d, decChars p] := by
  unfold mkCidr
  rw [splitOn_append_sep '/' _ _ (ipChars_no_slash a b c d),
    splitOn_no_sep '/' _ (decChars_beq_false (by decide))]

lemma splitOn_ipChars (a b c d : Nat) :
    (ipChars a b c d).splitOn '.' = [decChars a, decChars b, decChars c, decChars d] := by
  unfold ipChars
  rw [splitOn_append_sep '.' _ _ (decChars_beq_false (by decide)),
    splitOn_append_sep '.' _ _ (decChars_beq_false (by decide)),
    splitOn_append_sep '.' _ _ (decChars_beq_false (by decide)),
    splitOn_no_sep '.' _ (decChars_beq_false (by decide))]

lemma foldlM_octets (a b c d : Nat) (ha : a ≤ 255) (hb : b ≤ 255) (hc : c ≤ 255)
    (hd : d ≤ 255) :
    ([decChars a, decChars b, decChars c, decChars d].enum).foldlM octetStep 0 =
      some (ipOfOctets a b c d) := by
  simp [List.enum, List.enumFrom, List.foldlM, octetStep, parseU8_decChars ha,
    parseU8_decChars hb, parseU8_decChars hc, parseU8_decChars hd, ipOfOctets]

lemma parse_cidr_mkCidr (a b c d p : Nat) (ha : a ≤ 255) (hb : b ≤ 255) (hc : c ≤ 255)
    (hd : d ≤ 255) (hp : p ≤ 32) :
    parse_cidr_to_lpm (mkCidr a b c d p) =
      some (ipOfOctets a b c d &&& u32_mask p, p) := by
  unfold parse_cidr_to_lpm
  simp only [splitOn_mkCidr, splitOn_ipChars]
  simp [foldlM_octets a b c d ha hb hc hd, parseU32_decChars hp, Nat.not_lt.mpr hp]

lemma land_land_self (x m : Nat) : (x &&& m) &&& m = x &&& m := by
  apply Nat.eq_of_testBit_eq
  intro i
  simp [Nat.testBit_land, Bool.and_assoc]

lemma foldlM_octetStep_none :
    ∀ (l : List (Nat × List Char)) (acc : Nat), (∃ q ∈ l, parseU8 q.2 = none) →
      l.foldlM octetStep acc = none := by
  intro l
  induction l with
  | nil => intro acc h; simp at h
  | cons q rest ih =>
    intro acc h
    rcases h with ⟨r, hr, hnone⟩
    rcases List.mem_cons.mp hr with rfl | hmem
    · simp [List.foldlM, octetStep, hnone]
    · cases hq : parseU8 q.2 with
      | none => simp [List.foldlM, octetStep, hq]
      | some byte =>
        simp only [List.foldlM, octetStep, hq, Option.map_some', Option.some_bind]
        exact ih _ ⟨r, hmem, hnone⟩

lemma octet_fold_checked_eq (l : List (Nat × List Char)) :
    ∀ acc : Nat, octet_fold_checked acc l = some (l.foldlM octetStep acc) := by
  induction l with
  | nil => intro acc; simp [octet_fold_checked, List.foldlM]
  | cons q rest ih =>
    intro acc
    simp only [octet_fold_checked, List.foldlM, octetStep]
    cases hp : parseU8 q.2 with
    | none => simp
    | some byte =>
      have hk : 24 - q.1 * 8 < 32 := by omega
      simp [checked_shl32, hk, ih]

lemma collect_geo_eq_filterMap (fetch : List Char → Option GeoIpData) :
    ∀ codes, collect_geo fetch codes =
      codes.filterMap (fun c => (fetch (upperCode c)).map (fun d => (upperCode c, d))) := by
  intro codes
  induction codes with
  | nil => rfl
  | cons c rest ih =>
    cases hf : fetch (upperCode c) with
    | none => simp [collect_geo, hf, ih]
    | some d => simp [collect_geo, hf, ih]

/-! The claims. -/

/-- C4: for every valid canonical CIDR string `A.B.C.D/p` with the four
octets in `[0, 255]` and `p` in `[0, 32]`, `parse_cidr_to_lpm` returns
`some (net, p)` where `net` is invariant under re-masking
(`net &&& mask p = net`) and `p ≤ 32`. -/
theorem parse_cidr_roundtrip (a b c d p : Nat) (ha : a ≤ 255) (hb : b ≤ 255)
    (hc : c ≤ 255) (hd : d ≤ 255) (hp : p ≤ 32) :
    ∃ net, parse_cidr_to_lpm (mkCidr a b c d p) = some (net, p) ∧
      net &&& u32_mask p = net ∧ p ≤ 32 :=
  ⟨ipOfOctets a b c d &&& u32_mask p, parse_cidr_mkCidr a b c d p ha hb hc hd hp,
    land_land_self _ _, hp⟩

/-- Witness for C4 at the concrete CIDR `198.51.100.7/24`. -/
theorem parse_cidr_roundtrip_witness :
    ∃ net, parse_cidr_to_lpm (mkCidr 198 51 100 7 24) = some (net, 24) ∧
      net &&& u32_mask 24 = net ∧ 24 ≤ 32 :=
  parse_cidr_roundtrip 198 51 100 7 24 (by decide) (by decide) (by decide) (by decide)
    (by decide)

/-- C5: for every valid canonical CIDR string, the network address that
`parse_cidr_to_lpm` returns is `ip &&& mask`, where `ip` is the address
assembled from the four octets and `mask` is 0 when `p = 0` and the
all-ones 32-bit word shifted left by `32 - p` otherwise. -/
theorem parse_cidr_network_masked (a b c d p : Nat) (ha : a ≤ 255) (hb : b ≤ 255)
    (hc : c ≤ 255) (hd : d ≤ 255) (hp : p ≤ 32) :
    parse_cidr_to_lpm (mkCidr a b c d p) = some (ipOfOctets a b c d &&& u32_mask p, p) :=
  parse_cidr_mkCidr a b c d p ha hb hc hd hp

/-- Witness for C5 at the concrete CIDR `10.0.0.1/8`. -/
theorem parse_cidr_network_masked_witness :
    parse_cidr_to_lpm (mkCidr 10 0 0 1 8) = some (ipOfOctets 10 0 0 1 &&& u32_mask 8, 8) :=
  parse_cidr_network_masked 10 0 0 1 8 (by decide) (by decide) (by decide) (by decide)
    (by decide)

/-- C3: for every successfully parsed CIDR, the LPM key the loader
inserts is the pair `(p, htonl net)`: the prefix length in host byte
order and the network address converted to network byte order. -/
theorem loader_key_is_htonl (s : List Char) (net p : Nat)
    (h : parse_cidr_to_lpm s = some (net, p)) :
    loader_key s = some (p, htonl net) := by
  unfold loader_key
  rw [h]
  rfl

/-- Witness for C3 at the concrete CIDR `1.0.1.0/24`. -/
theorem loader_key_is_htonl_witness :
    loader_key ("1.0.1.0/24".data) = some (24, htonl 16777472) :=
  loader_key_is_htonl _ 16777472 24 (by decide)

/-- C10: `parse_cidr_to_lpm` accepts strings outside the canonical
`A.B.C.D/p` grammar: octets and prefix length may carry a leading plus
sign or leading zeros, as on `+1.2.3.4/+24` and `001.002.003.004/024`,
both of which parse to the network `1.2.3.0/24`. -/
theorem parse_cidr_accepts_noncanonical :
    parse_cidr_to_lpm ("+1.2.3.4/+24".data) = some (16909056, 24) ∧
    parse_cidr_to_lpm ("001.002.003.004/024".data) = some (16909056, 24) := by
  constructor <;> decide

/-- C6: a CIDR string that is malformed or out of range in one of the
listed ways (not exactly two '/'-separated parts, not exactly four
'.'-separated octets, an octet outside `[0, 255]` or non-numeric, a
missing or non-numeric prefix, or a prefix length above 32) makes
`parse_cidr_to_lpm` return `none`, and the loader's insertion loop
skips that entry and continues with the remaining entries of the
batch. -/
theorem malformed_cidr_skipped (s : List Char) (h : cidr_malformed s = true) :
    parse_cidr_to_lpm s = none ∧ ∀ rest, load_entries (s :: rest) = load_entries rest := by
  have hp : parse_cidr_to_lpm s = none := by
    rcases hsplit : s.splitOn '/' with _ | ⟨ipStr, _ | ⟨preStr, _ | ⟨x, t⟩⟩⟩
    · simp [parse_cidr_to_lpm, hsplit]
    · simp [parse_cidr_to_lpm, hsplit]
    · simp only [cidr_malformed, hsplit] at h
      rcases h4 : ipStr.splitOn '.' with _ | ⟨pa, _ | ⟨pb, _ | ⟨pc, _ | ⟨pd, _ | ⟨pe, t5⟩⟩⟩⟩⟩
      · simp [parse_cidr_to_lpm, hsplit, h4]
      · simp [parse_cidr_to_lpm, hsplit, h4]
      · simp [parse_cidr_to_lpm, hsplit, h4]
      · simp [parse_cidr_to_lpm, hsplit, h4]
      · rw [h4] at h
        cases hu : parseU32 preStr with
        | none =>
          simp only [parse_cidr_to_lpm, hsplit, h4]
          cases hf : ([pa, pb, pc, pd].enum).foldlM octetStep 0 with
          | none => simp [hf]
          | some ip => simp [hf, hu]
        | some p =>
          rw [hu] at h
          simp at h
          rcases h with (h1 | h1 | h1 | h1) | h1
          · have hfold := foldlM_octetStep_none ([pa, pb, pc, pd].enum) 0
              ⟨(0, pa), by simp [List.enum, List.enumFrom], h1⟩
            simp [parse_cidr_to_lpm, hsplit, h4, hfold]
          · have hfold := foldlM_octetStep_none ([pa, pb, pc, pd].enum) 0
              ⟨(1, pb), by simp [List.enum, List.enumFrom], h1⟩
            simp [parse_cidr_to_lpm, hsplit, h4, hfold]
          · have hfold := foldlM_octetStep_none ([pa, pb, pc, pd].enum) 0
              ⟨(2, pc), by simp [List.enum, List.enumFrom], h1⟩
            simp [parse_cidr_to_lpm, hsplit, h4, hfold]
          · have hfold := foldlM_octetStep_none ([pa, pb, pc, pd].enum) 0
              ⟨(3, pd), by simp [List.enum, List.enumFrom], h1⟩
            simp [parse_cidr_to_lpm, hsplit, h4, hfold]
          · simp only [parse_cidr_to_lpm, hsplit, h4]
            cases hf : ([pa, pb, pc, pd].enum).foldlM octetStep 0 with
            | none => simp [hf]
            | some ip => simp [hf, hu, h1]
      · simp [parse_cidr_to_lpm, hsplit, h4]
    · simp [parse_cidr_to_lpm, hsplit]
  exact ⟨hp, fun rest => by simp [load_entries, hp]⟩

/-- Witness for C6 at the concrete malformed CIDR `1.2.3/24` (three
octets instead of four). -/
theorem malformed_cidr_skipped_witness :
    cidr_malformed ("1.2.3/24".data) = true ∧
    (parse_cidr_to_lpm ("1.2.3/24".data) = none ∧
      ∀ rest, load_entries (("1.2.3/24".data) :: rest) = load_entries rest) :=
  ⟨by decide, malformed_cidr_skipped _ (by decide)⟩

/-- C9: `parse_cidr_to_lpm` is total and panic-free: the variant whose
u32 shifts are all routed through `checked_shl32` (which reports a
panicking shift amount of 32 or more as the outer `none`) never
reports a panic and agrees with `parse_cidr_to_lpm` on every input; in
particular every shift it performs has a shift amount strictly below
32. -/
theorem parse_cidr_total_no_panic (s : List Char) :
    parse_cidr_to_lpm_checked s = some (parse_cidr_to_lpm s) := by
  rcases hsplit : s.splitOn '/' with _ | ⟨ipStr, _ | ⟨preStr, _ | ⟨x, t⟩⟩⟩
  · simp [parse_cidr_to_lpm_checked, parse_cidr_to_lpm, hsplit]
  · simp [parse_cidr_to_lpm_checked, parse_cidr_to_lpm, hsplit]
  · rcases h4 : ipStr.splitOn '.' with _ | ⟨pa, _ | ⟨pb, _ | ⟨pc, _ | ⟨pd, _ | ⟨pe, t5⟩⟩⟩⟩⟩
    · simp [parse_cidr_to_lpm_checked, parse_cidr_to_lpm, hsplit, h4]
    · simp [parse_cidr_to_lpm_checked, parse_cidr_to_lpm, hsplit, h4]
    · simp [parse_cidr_to_lpm_checked, parse_cidr_to_lpm, hsplit, h4]
    · simp [parse_cidr_to_lpm_checked, parse_cidr_to_lpm, hsplit, h4]
    · simp only [parse_cidr_to_lpm_checked, parse_cidr_to_lpm, hsplit, h4]
      rw [octet_fold_checked_eq]
      cases hf : ([pa, pb, pc, pd].enum).foldlM octetStep 0 with
      | none => simp [hf]
      | some ip =>
        cases hu : parseU32 preStr with
        | none => simp [hf, hu]
        | some p =>
          by_cases hgt : p > 32
          · simp [hf, hu, hgt]
          · by_cases h0 : p = 0
            · subst h0
              simp [hf, hu, u32_mask]
            · have h32 : 32 - p < 32 := by omega
              simp [hf, hu, hgt, h0, checked_shl32, h32, u32_mask]
    · simp [parse_cidr_to_lpm_checked, parse_cidr_to_lpm, hsplit, h4]
  · simp [parse_cidr_to_lpm_checked, parse_cidr_to_lpm, hsplit]

/-- C7: fetching GeoIP data for a list of countries succeeds with the
sublist of (uppercased) countries whose fetches succeeded, skipping any
country whose fetch fails, and it returns an error if and only if every
country in the list fails (vacuously including the empty list). -/
theorem fetch_multiple_ok_iff (fetch : List Char → Option GeoIpData)
    (codes : List (List Char)) :
    (fetch_multiple_geoip_data fetch codes = Except.error () ↔
      ∀ c ∈ codes, fetch (upperCode c) = none)
    ∧ ∀ res, fetch_multiple_geoip_data fetch codes = Except.ok res →
        res = codes.filterMap (fun c => (fetch (upperCode c)).map (fun d => (upperCode c, d))) := by
  unfold fetch_multiple_geoip_data
  rw [collect_geo_eq_filterMap]
  by_cases hemp :
      (codes.filterMap (fun c => (fetch (upperCode c)).map (fun d => (upperCode c, d)))).isEmpty
  · constructor
    · rw [if_pos hemp]
      simp only [List.isEmpty_iff, List.filterMap_eq_nil_iff, Option.map_eq_none'] at hemp
      simpa using hemp
    · intro res hres
      rw [if_pos hemp] at hres
      exact absurd hres (by simp)
  · constructor
    · rw [if_neg hemp]
      simp only [List.isEmpty_iff, List.filterMap_eq_nil_iff, Option.map_eq_none'] at hemp
      simp [hemp]
    · intro res hres
      rw [if_neg hemp] at hres
      exact (Except.ok.injEq _ _ ▸ hres).symm ▸ rfl

/-- Concrete fetch oracle for the C7 witness: only `CN` succeeds, with
an empty document. -/
def fetchCNOnly : List Char → Option GeoIpData :=
  fun c => if c = ['C', 'N'] then some ⟨[]⟩ else none

/-- Concrete country list for the C7 witness. -/
def codesCNXX : List (List Char) := [['c', 'n'], ['x', 'x']]

/-- Witness for C7: with only `CN` fetchable, the result is exactly the
singleton success list. -/
theorem fetch_multiple_ok_iff_witness :
    [(['C', 'N'], (⟨[]⟩ : GeoIpData))] =
      codesCNXX.filterMap
        (fun c => (fetchCNOnly (upperCode c)).map (fun d => (upperCode c, d))) :=
  (fetch_multiple_ok_iff fetchCNOnly codesCNXX).2 [(['C', 'N'], ⟨[]⟩)] rfl

/-- The invocation `--block-all-from CN` with no other option. -/
def optBlockAllFromCN : Opt :=
  { countries := [], allow_only_countries := [], block_all_from := [['C', 'N']],
    block_email := false, block_http := false, block_socks5 := false,
    block_fet_strict := false, block_fet_loose := false, block_wireguard := false,
    block_quic := false, block_all := false }

/-- C1 (code bug): for the invocation `--block-all-from CN` (without the
separate `--block-all` toggle) the target countries are that list and
the GEOIP_ENABLED bit is set, but the compiled CONFIG word does NOT
contain the BLOCK_ALL bit, contradicting the claim, the spec's rule 2,
and the CLI's own help text for `--block-all-from` ("equivalent to
`--countries X --block-all`", main.rs lines 168-171): `config_flags`
only ors in RULE_BLOCK_ALL when `opt.block_all` is set (line 424). -/
theorem blockAllFrom_missing_block_all_bit :
    (country_select optBlockAllFromCN).1 = [['C', 'N']] ∧
    config_flags optBlockAllFromCN = RULE_GEOIP_ENABLED ∧
    config_flags optBlockAllFromCN &&& RULE_BLOCK_ALL = 0 := by
  refine ⟨rfl, rfl, ?_⟩
  decide

/-- The invocation supplying both `--allow-only-countries US` and
`--block-all-from CN`. -/
def optAllowAndBlockAllFrom : Opt :=
  { countries := [], allow_only_countries := [['U', 'S']], block_all_from := [['C', 'N']],
    block_email := false, block_http := false, block_socks5 := false,
    block_fet_strict := false, block_fet_loose := false, block_wireguard := false,
    block_quic := false, block_all := false }

/-- Counterexample to C2: `--allow-only-countries` and
`--block-all-from` are both supplied, yet clap accepts the invocation
(no conflict is declared between this pair), and `block_all_from`
silently takes precedence as the target country list. -/
theorem allowOnly_blockAllFrom_both_accepted :
    optAllowAndBlockAllFrom.allow_only_countries.isEmpty = false ∧
    optAllowAndBlockAllFrom.block_all_from.isEmpty = false ∧
    clap_accepts optAllowAndBlockAllFrom = true ∧
    (country_select optAllowAndBlockAllFrom).1 = optAllowAndBlockAllFrom.block_all_from := by
  refine ⟨rfl, rfl, ?_, rfl⟩
  decide

/-- C2 (amended): `allow-only` conflicts with `countries` and
`block-all-from` conflicts with `countries` — each of those two pairs is
rejected by clap as a configuration error before attach — but
`allow-only` and `block-all-from` are NOT mutually exclusive: supplied
together the invocation is accepted and `block_all_from` silently takes
precedence as the target country list. -/
theorem country_conflicts_amended (o : Opt) :
    (o.allow_only_countries.isEmpty = false → o.countries.isEmpty = false →
      clap_accepts o = false)
    ∧ (o.block_all_from.isEmpty = false → o.countries.isEmpty = false →
      clap_accepts o = false)
    ∧ (o.block_all_from.isEmpty = false → (country_select o).1 = o.block_all_from) := by
  refine ⟨fun h1 h2 => ?_, fun h1 h2 => ?_, fun h1 => ?_⟩
  · simp [clap_accepts, h1, h2]
  · simp [clap_accepts, h1, h2]
  · simp [country_select, h1]

/-- The invocation supplying all three country lists. -/
def optAllThreeLists : Opt :=
  { countries := [['R', 'U']], allow_only_countries := [['U', 'S']],
    block_all_from := [['C', 'N']],
    block_email := false, block_http := false, block_socks5 := false,
    block_fet_strict := false, block_fet_loose := false, block_wireguard := false,
    block_quic := false, block_all := false }

/-- Witness for the amended C2 at a concrete invocation supplying all
three lists: clap rejects it, and `block_all_from` is the selected
target list. -/
theorem country_conflicts_amended_witness :
    clap_accepts optAllThreeLists = false ∧
    (country_select optAllThreeLists).1 = optAllThreeLists.block_all_from :=
  ⟨(country_conflicts_amended optAllThreeLists).1 (by decide) (by decide),
    (country_conflicts_amended optAllThreeLists).2.2 (by decide)⟩

/-- The CONFIG chain of `config_flags` as a function of the two GeoIP
booleans (country list nonempty, whitelist mode) and the eight rule
toggles; `config_flags` is definitionally this applied to the selected
country state.  Used to case-split the C8 invariants. -/
def config_bits (geo wl be bh bs5 bfs bfl bw bq ba : Bool) : Nat :=
  let f := 0
  let f := if be then f ||| RULE_BLOCK_EMAIL else f
  let f := if geo then
             (if wl then (f ||| RULE_GEOIP_ENABLED) ||| RULE_GEOIP_WHITELIST
              else f ||| RULE_GEOIP_ENABLED)
           else f
  let f := if bh then f ||| RULE_BLOCK_HTTP else f
  let f := if bs5 then f ||| RULE_BLOCK_SOCKS5 else f
  let f := if bfs then f ||| RULE_BLOCK_FET_STRICT else f
  let f := if bfl then f ||| RULE_BLOCK_FET_LOOSE else f
  let f := if bw then f ||| RULE_BLOCK_WIREGUARD else f
  let f := if bq then f ||| RULE_BLOCK_QUIC else f
  let f := if ba then f ||| RULE_BLOCK_ALL else f
  f

lemma config_flags_eq_bits (o : Opt) :
    config_flags o = config_bits (!(country_select o).1.isEmpty) (country_select o).2
      o.block_email o.block_http o.block_socks5 o.block_fet_strict o.block_fet_loose
      o.block_wireguard o.block_quic o.block_all := rfl

lemma config_bits_invariants (geo wl be bh bs5 bfs bfl bw bq ba : Bool)
    (hfet : bfs = false ∨ bfl = false) :
    (config_bits geo wl be bh bs5 bfs bfl bw bq ba &&& RULE_BLOCK_FET_STRICT = 0 ∨
      config_bits geo wl be bh bs5 bfs bfl bw bq ba &&& RULE_BLOCK_FET_LOOSE = 0)
    ∧ (config_bits geo wl be bh bs5 bfs bfl bw bq ba &&& RULE_GEOIP_WHITELIST ≠ 0 →
      config_bits geo wl be bh bs5 bfs bfl bw bq ba &&& RULE_GEOIP_ENABLED ≠ 0) := by
  revert hfet
  revert geo wl be bh bs5 bfs bfl bw bq ba
  decide

/-- C8: every CONFIG word the control plane can produce from a
clap-accepted invocation satisfies both invariants: the FET_STRICT and
FET_LOOSE bits are never both set, and whenever the GEOIP_WHITELIST bit
is set the GEOIP_ENABLED bit is also set. -/
theorem config_invariants (o : Opt) (h : clap_accepts o = true) :
    (config_flags o &&& RULE_BLOCK_FET_STRICT = 0 ∨
      config_flags o &&& RULE_BLOCK_FET_LOOSE = 0)
    ∧ (config_flags o &&& RULE_GEOIP_WHITELIST ≠ 0 →
      config_flags o &&& RULE_GEOIP_ENABLED ≠ 0) := by
  have hfet : o.block_fet_strict = false ∨ o.block_fet_loose = false := by
    cases hs : o.block_fet_strict
    · exact Or.inl rfl
    · cases hl : o.block_fet_loose
      · exact Or.inr rfl
      · simp [clap_accepts, hs, hl] at h
  rw [config_flags_eq_bits]
  exact config_bits_invariants _ _ _ _ _ _ _ _ _ _ hfet

/-- The invocation `--allow-only-countries US --block-fet-strict`. -/
def optAllowOnlyFetStrict : Opt :=
  { countries := [], allow_only_countries := [['U', 'S']], block_all_from := [],
    block_email := false, block_http := false, block_socks5 := false,
    block_fet_strict := true, block_fet_loose := false, block_wireguard := false,
    block_quic := false, block_all := false }

/-- Witness for C8 at a concrete clap-accepted invocation that sets the
whitelist and FET-strict bits. -/
theorem config_invariants_witness :
    clap_accepts optAllowOnlyFetStrict = true ∧
    ((config_flags optAllowOnlyFetStrict &&& RULE_BLOCK_FET_STRICT = 0 ∨
      config_flags optAllowOnlyFetStrict &&& RULE_BLOCK_FET_LOOSE = 0)
    ∧ (config_flags optAllowOnlyFetStrict &&& RULE_GEOIP_WHITELIST ≠ 0 →
      config_flags optAllowOnlyFetStrict &&& RULE_GEOIP_ENABLED ≠ 0)) :=
  ⟨by decide, config_invariants optAllowOnlyFetStrict (by decide)⟩
